import Mathlib

/-!
Verification development for the facefusion runtime layer:
a shallow embedding of `facefusion/inference_manager.py`,
`facefusion/uis/components/webcam.py` and `facefusion/predictor.py`,
together with theorems about the embedded operations.
-/

/- ===== Embedding of facefusion/inference_manager.py ===== -/

/-- The two execution contexts of the inference pool
(`INFERENCE_POOLS` has exactly the keys `cli` and `ui`). -/
inductive AppContext where
  | cli
  | ui
deriving DecidableEq

/-- The context other than the given one (the source hard-codes the two
symmetric cases `cli`/`ui` at lines 29-32 of inference_manager.py). -/
def AppContext.other : AppContext → AppContext
  | .cli => .ui
  | .ui => .cli

/-- An inference pool (handle set): `modelNames` are the keys of the dict
built by `create_inference_pool` (one open inference session per model
source); `poolId` records the identity of the creation event so that
"same underlying handle set" (reference sharing) is expressible. -/
structure InferencePool where
  poolId : Nat
  modelNames : List String
deriving DecidableEq

/-- The global `INFERENCE_POOLS` state: for each context and model-context
key, either a handle set or absent (`none` covers both a missing dict key
and an entry explicitly set to Python `None`), plus a counter supplying
fresh identities for newly created handle sets. -/
structure PoolState where
  entries : AppContext → String → Option InferencePool
  nextId : Nat

/-- Store a value under one `(context, key)` cell of the pool map. -/
def PoolState.set (st : PoolState) (app : AppContext) (mc : String)
    (v : Option InferencePool) : PoolState :=
  { st with entries := fun a m => if a = app ∧ m = mc then v else st.entries a m }

/-- Python truthiness of `INFERENCE_POOLS.get(ctx).get(model_context)`:
`None` and the empty dict `{}` are falsy, a non-empty dict is truthy. -/
def truthyPool : Option InferencePool → Bool
  | none => false
  | some p => !p.modelNames.isEmpty

/-- Embedding of `create_inference_pool`: builds one handle per key of
`model_sources`; `freshId` is the identity of this creation event. -/
def create_inference_pool (modelSources : List String) (freshId : Nat) : InferencePool :=
  { poolId := freshId, modelNames := modelSources }

/-- Embedding of the decision-and-create sequence of `get_inference_pool`
(inference_manager.py lines 27-36, the part after the wait loop, inside the
lock): if the other context's entry is truthy, adopt it (store the same
reference under the calling context); then, if the calling context's entry
`is None`, create a new handle set from `model_sources`; finally return the
calling context's entry. -/
def get_inference_pool (app : AppContext) (mc : String)
    (modelSources : List String) (st : PoolState) : Option InferencePool × PoolState :=
  let st1 := if truthyPool (st.entries app.other mc)
    then st.set app mc (st.entries app.other mc) else st
  let st2 := if (st1.entries app mc) = none
    then { (st1.set app mc (some (create_inference_pool modelSources st1.nextId))) with
            nextId := st1.nextId + 1 }
    else st1
  (st2.entries app mc, st2)

/-- Embedding of `clear_inference_pool`: sets the calling context's entry
for the key to Python `None`. -/
def clear_inference_pool (app : AppContext) (mc : String) (st : PoolState) : PoolState :=
  st.set app mc none

/-- Embedding of the wait loop `while process_manager.is_checking(): sleep(0.5)`
at the top of `get_inference_pool`: `isChecking j` is the value read by the
j-th poll. Returns the index of the first poll that reads `false` (equally,
the number of 0.5 s sleeps performed before proceeding), or `none` when
every one of the `fuel` polls reads `true` (the loop is still blocked). -/
def waitWhileChecking (isChecking : Nat → Bool) : Nat → Nat → Option Nat
  | 0, _ => none
  | fuel + 1, k => if isChecking k then waitWhileChecking isChecking fuel (k + 1) else some k

/-- Total time slept inside the wait loop, in seconds: one fixed 0.5 s
backoff per poll that read `true`. -/
def acquireWaitSeconds (isChecking : Nat → Bool) (fuel : Nat) : Option ℚ :=
  (waitWhileChecking isChecking fuel 0).map (fun k => (k : ℚ) * (1 / 2))

/-- Embedding of the whole of `get_inference_pool` including the wait loop:
the decision-and-create sequence runs only once a poll has read the
verification flag as `false`; while every poll reads `true` the function is
still inside the wait loop (`none`) and the pool state is untouched. -/
def get_inference_pool_checked (isChecking : Nat → Bool) (fuel : Nat)
    (app : AppContext) (mc : String) (modelSources : List String)
    (st : PoolState) : Option (Option InferencePool × PoolState) :=
  match waitWhileChecking isChecking fuel 0 with
  | none => none
  | some _ => some (get_inference_pool app mc modelSources st)

/-- The static incompatibility table of `find_execution_providers`:
model contexts pinned to the CPU fallback when the coreml provider
is available. -/
def incompatibleModelContexts : List String :=
  [ "facefusion.processors.modules.age_modifier", "facefusion.processors.modules.frame_colorizer" ]

/-- Embedding of `find_execution_providers`: `hasCoreml` is the value of
`has_execution_provider('coreml')` and `executionProviders` the configured
global provider preference (`state_manager.get_item('execution_providers')`). -/
def find_execution_providers (hasCoreml : Bool) (executionProviders : List String)
    (modelContext : String) : List String :=
  if hasCoreml ∧ modelContext ∈ incompatibleModelContexts
    then [ "cpu" ]
    else executionProviders

/- ===== Embedding of facefusion/uis/components/webcam.py ===== -/

/-- The capture-device part of the webcam module's global state:
`capturePresent` is whether the global `WEBCAM_CAPTURE` is not `None`;
`captureOpened` is whether the underlying device handle most recently
produced by `get_webcam_capture` answers `isOpened()` with true. The
handle is shared by reference: `start`'s loop and `multi_process_capture`
both observe the same `captureOpened`. -/
structure WebcamState where
  capturePresent : Bool
  captureOpened : Bool
deriving DecidableEq

/-- Embedding of `clear_webcam_capture`: release the device referenced by
the global (only when the global is set) and set the global to `None`. -/
def clear_webcam_capture (s : WebcamState) : WebcamState :=
  { capturePresent := false,
    captureOpened := if s.capturePresent then false else s.captureOpened }

/-- Embedding of `get_webcam_capture`: when the global is `None`, open the
device (`deviceOpens` is whether the fresh `cv2.VideoCapture` answers
`isOpened()` with true); the global is set only when the open succeeded.
Returns whether the returned handle is truthy together with the new state. -/
def get_webcam_capture (deviceOpens : Bool) (s : WebcamState) : Bool × WebcamState :=
  if s.capturePresent then (true, s)
  else if deviceOpens then (true, { capturePresent := true, captureOpened := true })
  else (false, s)

/-- Result of writing one frame's bytes to the external stream process
(`stream.stdin.write(capture_frame.tobytes())`): an exception or success. -/
def write_sink_frame (fails : Bool) : Except Unit Unit :=
  if fails then Except.error () else Except.ok ()

/-- The state of one external-sink streaming session started by `start`:
the webcam global state plus counters of frames pulled from
`multi_process_capture` and frames successfully written to the sink. -/
structure StreamSession where
  webcam : WebcamState
  framesYielded : Nat
  framesWritten : Nat
deriving DecidableEq

/-- One iteration of `start`'s external-sink loop
(webcam.py lines 106-114, modes `udp`/`v4l2`): the generator
`multi_process_capture` yields a further frame only while the shared
capture handle answers `isOpened()`; the frame's bytes are written to the
sink inside `try`/`except`, and on an exception `clear_webcam_capture()`
runs and the loop continues (the exception is swallowed); the next
iteration then finds the released handle closed and the generator ends. -/
def stream_loop_step (writeFails : Nat → Bool) (t : Nat) (s : StreamSession) : StreamSession :=
  if s.webcam.captureOpened then
    let s1 := { s with framesYielded := s.framesYielded + 1 }
    match write_sink_frame (writeFails t) with
    | Except.error _ => { s1 with webcam := clear_webcam_capture s1.webcam }
    | Except.ok _ => { s1 with framesWritten := s1.framesWritten + 1 }
  else s

/-- Run the external-sink loop for the first `T` iterations. -/
def stream_loop (writeFails : Nat → Bool) : Nat → StreamSession → StreamSession
  | 0, s => s
  | t + 1, s => stream_loop_step writeFails t (stream_loop writeFails t s)

/-- The webcam global state at module load: `WEBCAM_CAPTURE = None`. -/
def initialWebcamState : WebcamState :=
  { capturePresent := false, captureOpened := false }

/-- Embedding of `start` in external-sink mode (webcam.py lines 91-115):
obtain the capture via `get_webcam_capture`; only if the handle is truthy
and open is the streaming loop entered, otherwise the generator finishes
at once with the session idle. -/
def start (deviceOpens : Bool) (writeFails : Nat → Bool) (T : Nat) : StreamSession :=
  let g := get_webcam_capture deviceOpens initialWebcamState
  if g.1 ∧ g.2.captureOpened
    then stream_loop writeFails T { webcam := g.2, framesYielded := 0, framesWritten := 0 }
    else { webcam := g.2, framesYielded := 0, framesWritten := 0 }

/-- A stage of the transformation chain as `process_stream_frame` uses it:
`pre_process` is the value of the module's `pre_process('stream')` gate and
`process_frame` its frame transform (the reference face argument is the
constant `None` in the source and is folded into the function). -/
structure FrameProcessorModule (Face Frame : Type) where
  pre_process : Bool
  process_frame : Face → Frame → Frame

/-- Embedding of `process_stream_frame` (webcam.py lines 153-163): fold the
module list over the frame, applying a module's transform to the
accumulated frame exactly when its gate accepts, otherwise passing the
accumulated frame through unchanged. -/
def process_stream_frame {Face Frame : Type}
    (modules : List (FrameProcessorModule Face Frame))
    (source_face : Face) (frame : Frame) : Frame :=
  match modules with
  | [] => frame
  | m :: rest =>
      process_stream_frame rest source_face
        (if m.pre_process then m.process_frame source_face frame else frame)

/-- The loop state of `multi_process_capture` (webcam.py lines 117-134):
`futures` holds the sequence numbers of submitted, not yet collected
frames in submission order; `emitted` the sequence numbers of frames
yielded so far, in yield order; `halted` whether the generator has
returned (loop guard false or content-policy halt). -/
structure CaptureLoopState where
  futures : List Nat
  emitted : List Nat
  halted : Bool
deriving DecidableEq

/-- One iteration of `multi_process_capture`'s while loop at iteration
index `t` (the frame read in iteration `t` carries sequence number `t`):
check the loop guard `webcam_capture.isOpened()` (`capOpen t`); read a
frame and ask the content policy `analyse_stream` (`halt t`), returning if
it signals; submit the frame; collect every future the `done` schedule
marks complete at time `t`, in submission order, removing it from
`futures`; drain the deque, i.e. append the collected frames to `emitted`.
Once the generator has returned, the state no longer changes. -/
def multi_process_capture_step (capOpen halt : Nat → Bool) (done : Nat → Nat → Bool)
    (t : Nat) (s : CaptureLoopState) : CaptureLoopState :=
  if s.halted then s
  else if !capOpen t then { s with halted := true }
  else if halt t then { s with halted := true }
  else
    { futures := (s.futures ++ [t]).filter (fun i => !done i t),
      emitted := s.emitted ++ (s.futures ++ [t]).filter (fun i => done i t),
      halted := false }

/-- The state of `multi_process_capture` after its first `T` iterations,
starting from the empty pipeline. -/
def multi_process_capture (capOpen halt : Nat → Bool) (done : Nat → Nat → Bool) :
    Nat → CaptureLoopState
  | 0 => { futures := [], emitted := [], halted := false }
  | t + 1 => multi_process_capture_step capOpen halt done t
      (multi_process_capture capOpen halt done t)

/- ===== Embedding of facefusion/predictor.py ===== -/

/-- Python `int()` truncation toward zero on a rational. -/
def pythonInt (q : ℚ) : ℤ :=
  if 0 ≤ q then ⌊q⌋ else -⌊-q⌋

/-- Outcome of one `predict_stream` call: whether `predict_frame` (the
NSFW classifier) ran, the returned boolean, and the updated value of the
global `STREAM_COUNTER`. -/
structure PredictStreamResult where
  ranClassifier : Bool
  result : Bool
  counter : Nat
deriving DecidableEq

/-- Embedding of `predict_stream` (predictor.py lines 56-62): increment the
global counter, then test `STREAM_COUNTER % int(fps) == 0`; when the
modulus is zero the `%` raises `ZeroDivisionError` (the error case); on a
hit run the classifier (`classifierResult` is its verdict), otherwise
return `False` without running it. -/
def predict_stream (classifierResult : Bool) (streamCounter : Nat) (fps : ℚ) :
    Except Unit PredictStreamResult :=
  let c := streamCounter + 1
  let m := pythonInt fps
  if m = 0 then Except.error ()
  else if (c : ℤ) % m = 0 then Except.ok { ranClassifier := true, result := classifierResult, counter := c }
  else Except.ok { ranClassifier := false, result := false, counter := c }

/-- The pool state at module load: every entry absent, no creation yet. -/
def emptyPoolState : PoolState :=
  { entries := fun _ _ => none, nextId := 0 }

/- ===== Helper lemmas ===== -/

theorem AppContext.other_ne (app : AppContext) : app.other ≠ app := by
  cases app <;> simp [AppContext.other]

theorem AppContext.other_other (app : AppContext) : app.other.other = app := by
  cases app <;> rfl

theorem PoolState.set_same (st : PoolState) (app : AppContext) (mc : String)
    (v : Option InferencePool) : (st.set app mc v).entries app mc = v := by
  simp [PoolState.set]

theorem PoolState.set_other_ctx (st : PoolState) (app : AppContext) (mc : String)
    (v : Option InferencePool) (a : AppContext) (m : String) (h : a ≠ app) :
    (st.set app mc v).entries a m = st.entries a m := by
  simp only [PoolState.set]
  rw [if_neg]
  rintro ⟨h1, -⟩
  exact h h1

theorem PoolState.set_nextId (st : PoolState) (app : AppContext) (mc : String)
    (v : Option InferencePool) : (st.set app mc v).nextId = st.nextId := rfl

theorem truthyPool_ne_none {v : Option InferencePool} (h : truthyPool v = true) : v ≠ none := by
  cases v with
  | none => simp [truthyPool] at h
  | some p => simp

/-- Generalized correctness of the wait loop: if the flag reads true on
every poll from `k0` up to `k` and false at `k`, the loop proceeds exactly
at poll `k`. -/
theorem waitWhileChecking_eq (flag : Nat → Bool) :
    ∀ fuel k0 k, k0 ≤ k → (∀ j, k0 ≤ j → j < k → flag j = true) → flag k = false →
    k - k0 < fuel → waitWhileChecking flag fuel k0 = some k := by
  intro fuel
  induction fuel with
  | zero => intro k0 k _ _ _ hlt; omega
  | succ n ih =>
      intro k0 k hle hall hk hlt
      rcases Nat.lt_or_ge k0 k with hcase | hcase
      · have htrue : flag k0 = true := hall k0 (Nat.le_refl k0) hcase
        simp only [waitWhileChecking, htrue, if_true]
        exact ih (k0 + 1) k (by omega) (fun j hj1 hj2 => hall j (by omega) hj2) hk (by omega)
      · have hk0 : k0 = k := by omega
        subst hk0
        simp [waitWhileChecking, hk]

/-- If every poll reads the flag as true, the wait loop never proceeds. -/
theorem waitWhileChecking_none (flag : Nat → Bool) (h : ∀ j, flag j = true) :
    ∀ fuel k0, waitWhileChecking flag fuel k0 = none := by
  intro fuel
  induction fuel with
  | zero => intro k0; rfl
  | succ n ih => intro k0; simp only [waitWhileChecking, h k0, if_true]; exact ih (k0 + 1)

/- ===== Claim theorems ===== -/

/-- C3: `get_inference_pool` never proceeds to the decision-and-create
sequence while the verification flag `process_manager.is_checking` is set:
it polls with a fixed 0.5 s backoff for as long as the flag reads true
(k true polls mean k sleeps, k * 0.5 seconds of waiting) and proceeds to
the decision-and-create sequence exactly at the first poll that reads
false; while every poll reads true, the acquisition is still inside the
wait loop and no handle set is created. -/
theorem get_inference_pool_blocks_while_checking (flag : Nat → Bool) (fuel k : Nat)
    (app : AppContext) (mc : String) (srcs : List String) (st : PoolState)
    (hbefore : ∀ j, j < k → flag j = true) (hclear : flag k = false) (hfuel : k < fuel) :
    waitWhileChecking flag fuel 0 = some k ∧
    acquireWaitSeconds flag fuel = some ((k : ℚ) * (1 / 2)) ∧
    get_inference_pool_checked flag fuel app mc srcs st =
      some (get_inference_pool app mc srcs st) ∧
    (∀ flag2 fuel2, (∀ j, flag2 j = true) →
      get_inference_pool_checked flag2 fuel2 app mc srcs st = none) := by
  have hwait : waitWhileChecking flag fuel 0 = some k :=
    waitWhileChecking_eq flag fuel 0 k (Nat.zero_le k)
      (fun j _ hj => hbefore j hj) hclear (by omega)
  refine ⟨hwait, ?_, ?_, ?_⟩
  · simp [acquireWaitSeconds, hwait]
  · simp [get_inference_pool_checked, hwait]
  · intro flag2 fuel2 hall
    simp [get_inference_pool_checked, waitWhileChecking_none flag2 hall]

/-- Witness for C3: the flag reads true on polls 0 and 1 and false on
poll 2; acquisition sleeps twice (1 second in total) and then proceeds. -/
theorem get_inference_pool_blocks_while_checking_witness :
    waitWhileChecking (fun j => decide (j < 2)) 5 0 = some 2 ∧
    acquireWaitSeconds (fun j => decide (j < 2)) 5 = some ((2 : ℚ) * (1 / 2)) :=
  ⟨(get_inference_pool_blocks_while_checking (fun j => decide (j < 2)) 5 2
      AppContext.cli "m" [ "a" ] emptyPoolState
      (fun j hj => by simpa using hj) (by simp) (by omega)).1,
   (get_inference_pool_blocks_while_checking (fun j => decide (j < 2)) 5 2
      AppContext.cli "m" [ "a" ] emptyPoolState
      (fun j hj => by simpa using hj) (by simp) (by omega)).2.1⟩

/-- C6: when both contexts reference the same handle set for a key,
`clear_inference_pool` from one context sets only that context's entry to
absent, leaves the other context's entry unchanged, and a subsequent
acquisition of the key from the other context still returns the same
handle set without creating a new one. -/
theorem clear_inference_pool_preserves_other_context
    (app : AppContext) (mc : String) (srcs : List String) (st : PoolState) (p : InferencePool)
    (hown : st.entries app mc = some p) (hother : st.entries app.other mc = some p) :
    (clear_inference_pool app mc st).entries app mc = none ∧
    (clear_inference_pool app mc st).entries app.other mc = some p ∧
    (get_inference_pool app.other mc srcs (clear_inference_pool app mc st)).1 = some p ∧
    (get_inference_pool app.other mc srcs (clear_inference_pool app mc st)).2.nextId =
      st.nextId := by
  have hself : (clear_inference_pool app mc st).entries app mc = none :=
    PoolState.set_same st app mc none
  have hoth : (clear_inference_pool app mc st).entries app.other mc = some p := by
    rw [clear_inference_pool, PoolState.set_other_ctx st app mc none app.other mc
      (AppContext.other_ne app)]
    exact hother
  have hothother : (clear_inference_pool app mc st).entries app.other.other mc = none := by
    rw [AppContext.other_other]
    exact hself
  have htruthy : truthyPool ((clear_inference_pool app mc st).entries app.other.other mc) = false := by
    rw [hothother]
    rfl
  refine ⟨hself, hoth, ?_, ?_⟩
  · simp only [get_inference_pool, htruthy, Bool.false_eq_true, if_false]
    simp [hoth]
  · simp only [get_inference_pool, htruthy, Bool.false_eq_true, if_false, hoth]
    simp [clear_inference_pool, PoolState.set_nextId]

/-- Witness for C6: a concrete state in which both contexts share the
handle set with id 0; clearing from the cli context leaves the ui entry
and a ui acquisition intact. -/
theorem clear_inference_pool_preserves_other_context_witness :
    (clear_inference_pool AppContext.cli "m"
      ((emptyPoolState.set AppContext.cli "m" (some { poolId := 0, modelNames := [ "a" ] })).set
        AppContext.ui "m" (some { poolId := 0, modelNames := [ "a" ] }))).entries
      AppContext.cli.other "m" = some { poolId := 0, modelNames := [ "a" ] } :=
  (clear_inference_pool_preserves_other_context AppContext.cli "m" [ "b" ]
    ((emptyPoolState.set AppContext.cli "m" (some { poolId := 0, modelNames := [ "a" ] })).set
      AppContext.ui "m" (some { poolId := 0, modelNames := [ "a" ] }))
    { poolId := 0, modelNames := [ "a" ] } (by decide) (by decide)).2.1

/-- C7 counterexample: when the coreml provider is not available, the
resolver returns the configured global providers even for a model group of
the static incompatibility table, refuting "returns the CPU-only fallback
provider list regardless of the globally preferred providers". -/
theorem find_execution_providers_claim_false :
    find_execution_providers false [ "cuda" ] "facefusion.processors.modules.age_modifier"
      = [ "cuda" ] ∧
    find_execution_providers false [ "cuda" ] "facefusion.processors.modules.age_modifier"
      ≠ [ "cpu" ] := by
  constructor
  · rfl
  · decide

/-- C7 (amended): `find_execution_providers` is a pure function of the
coreml availability, the configured global providers and the model
context; when coreml is available it returns the CPU-only fallback for
exactly the model groups of the static incompatibility table, and in every
other case (group not in the table, or coreml unavailable) it returns the
configured global provider preference. -/
theorem find_execution_providers_fallback (hasCoreml : Bool) (eps : List String) (mc : String) :
    (hasCoreml = true → mc ∈ incompatibleModelContexts →
      find_execution_providers hasCoreml eps mc = [ "cpu" ]) ∧
    (hasCoreml = false ∨ mc ∉ incompatibleModelContexts →
      find_execution_providers hasCoreml eps mc = eps) := by
  constructor
  · intro h1 h2
    simp [find_execution_providers, h1, h2]
  · intro h
    rcases h with h | h
    · simp [find_execution_providers, h]
    · simp [find_execution_providers, h]

/-- Witness for C7 (amended): with coreml available the age-modifier group
is forced onto the CPU fallback, while an unlisted group keeps the global
preference. -/
theorem find_execution_providers_fallback_witness :
    find_execution_providers true [ "cuda" ] "facefusion.processors.modules.age_modifier"
      = [ "cpu" ] ∧
    find_execution_providers true [ "cuda" ] "facefusion.processors.modules.face_swapper"
      = [ "cuda" ] :=
  ⟨(find_execution_providers_fallback true [ "cuda" ]
      "facefusion.processors.modules.age_modifier").1 rfl (by decide),
   (find_execution_providers_fallback true [ "cuda" ]
      "facefusion.processors.modules.face_swapper").2 (Or.inr (by decide))⟩

/-- C1 counterexample: the cli context acquires the key "m" with empty
model sources and so stores the empty handle set (pool id 0); a ui
acquisition of the same key then finds the cli entry falsy (Python
truthiness of the empty dict), neither adopts it nor is stopped by it, and
creates a second handle set (pool id 1). Afterwards both contexts hold
distinct live handle sets for the key and a set was created although the
other context held one, refuting both "at most one live handle set" and
"a new set is created only when neither context holds one". -/
theorem get_inference_pool_single_set_claim_false :
    ((get_inference_pool AppContext.ui "m" [ "a" ]
        (get_inference_pool AppContext.cli "m" [] emptyPoolState).2).2.entries
      AppContext.cli "m" = some { poolId := 0, modelNames := [] }) ∧
    ((get_inference_pool AppContext.ui "m" [ "a" ]
        (get_inference_pool AppContext.cli "m" [] emptyPoolState).2).2.entries
      AppContext.ui "m" = some { poolId := 1, modelNames := [ "a" ] }) ∧
    ({ poolId := 0, modelNames := [] } : InferencePool) ≠ { poolId := 1, modelNames := [ "a" ] } ∧
    ((get_inference_pool AppContext.ui "m" [ "a" ]
        (get_inference_pool AppContext.cli "m" [] emptyPoolState).2).2.nextId = 2) := by
  refine ⟨?_, ?_, by decide, ?_⟩ <;> decide

/-- C1 (amended): cross-context sharing of `get_inference_pool`, with the
claim's "holds a handle set" corrected to "holds a nonempty handle set"
(the code tests Python truthiness, under which an empty handle set counts
as absent). If the other context's entry for the key is truthy (nonempty),
the acquisition stores that same set under the calling context, returns
it, leaves the other context's entry unchanged and creates nothing; if the
other context holds no nonempty set, a new set is created exactly when the
calling context's own entry is absent, and an existing own entry is
returned as is. -/
theorem get_inference_pool_adoption_and_creation
    (app : AppContext) (mc : String) (srcs : List String) (st : PoolState) :
    (truthyPool (st.entries app.other mc) = true →
      (get_inference_pool app mc srcs st).1 = st.entries app.other mc ∧
      (get_inference_pool app mc srcs st).2.entries app mc = st.entries app.other mc ∧
      (get_inference_pool app mc srcs st).2.entries app.other mc = st.entries app.other mc ∧
      (get_inference_pool app mc srcs st).2.nextId = st.nextId) ∧
    (truthyPool (st.entries app.other mc) = false →
      (st.entries app mc = none →
        (get_inference_pool app mc srcs st).1 = some (create_inference_pool srcs st.nextId) ∧
        (get_inference_pool app mc srcs st).2.entries app mc =
          some (create_inference_pool srcs st.nextId) ∧
        (get_inference_pool app mc srcs st).2.nextId = st.nextId + 1) ∧
      (∀ p, st.entries app mc = some p →
        (get_inference_pool app mc srcs st) = (some p, st))) := by
  constructor
  · intro htruthy
    have hset : (st.set app mc (st.entries app.other mc)).entries app mc =
        st.entries app.other mc := PoolState.set_same st app mc _
    have hoth : (st.set app mc (st.entries app.other mc)).entries app.other mc =
        st.entries app.other mc :=
      PoolState.set_other_ctx st app mc _ app.other mc (AppContext.other_ne app)
    have hne2 : st.entries app.other mc ≠ none := truthyPool_ne_none htruthy
    refine ⟨?_, ?_, ?_, ?_⟩ <;>
      simp [get_inference_pool, htruthy, hset, hoth, hne2, PoolState.set_nextId]
  · intro hfalsy
    constructor
    · intro hnone
      refine ⟨?_, ?_, ?_⟩ <;>
        simp [get_inference_pool, hfalsy, hnone, PoolState.set_same]
    · intro p hsome
      simp [get_inference_pool, hfalsy, hsome]

/-- Witness for C1 (amended): the ui context holds the nonempty handle set
with id 7; a cli acquisition adopts it and creates nothing. -/
theorem get_inference_pool_adoption_and_creation_witness :
    (get_inference_pool AppContext.cli "m" [ "b" ]
        (emptyPoolState.set AppContext.ui "m" (some { poolId := 7, modelNames := [ "a" ] }))).1 =
      (emptyPoolState.set AppContext.ui "m"
        (some { poolId := 7, modelNames := [ "a" ] })).entries AppContext.cli.other "m" ∧
    (get_inference_pool AppContext.cli "m" [ "b" ]
        (emptyPoolState.set AppContext.ui "m" (some { poolId := 7, modelNames := [ "a" ] }))).2.nextId =
      (emptyPoolState.set AppContext.ui "m"
        (some { poolId := 7, modelNames := [ "a" ] })).nextId :=
  ⟨((get_inference_pool_adoption_and_creation AppContext.cli "m" [ "b" ]
      (emptyPoolState.set AppContext.ui "m" (some { poolId := 7, modelNames := [ "a" ] }))).1
      (by decide)).1,
   ((get_inference_pool_adoption_and_creation AppContext.cli "m" [ "b" ]
      (emptyPoolState.set AppContext.ui "m" (some { poolId := 7, modelNames := [ "a" ] }))).1
      (by decide)).2.2.2⟩

/-- C8: when the capture device fails to open, `start` reports the failure
(the handle returned by `get_webcam_capture` is falsy), the streaming loop
is never entered (no frame yielded or written), the global capture handle
remains absent, and the session stays in the idle state for any number of
scheduler steps (it never reaches the running state). -/
theorem start_capture_open_failure_stays_idle (writeFails : Nat → Bool) (T : Nat) :
    (get_webcam_capture false initialWebcamState).1 = false ∧
    start false writeFails T =
      { webcam := { capturePresent := false, captureOpened := false },
        framesYielded := 0, framesWritten := 0 } := by
  constructor
  · rfl
  · simp [start, get_webcam_capture, initialWebcamState]

/-- C4: a sink write failure while the external-sink session is running
releases the capture device within that same loop iteration: the global
capture handle becomes absent and the device closed, the failed frame is
not counted as written, the exception is not propagated (the step yields a
successor state), and every subsequent loop iteration is a no-op because
the loop guard (the shared `isOpened`) is now false — the session is back
in the idle state. -/
theorem sink_write_failure_recovers_to_idle (writeFails : Nat → Bool) (t : Nat)
    (s : StreamSession) (hopen : s.webcam.captureOpened = true)
    (hpresent : s.webcam.capturePresent = true) (hfail : writeFails t = true) :
    (stream_loop_step writeFails t s).webcam.capturePresent = false ∧
    (stream_loop_step writeFails t s).webcam.captureOpened = false ∧
    (stream_loop_step writeFails t s).framesWritten = s.framesWritten ∧
    (∀ u, stream_loop_step writeFails u (stream_loop_step writeFails t s) =
      stream_loop_step writeFails t s) := by
  have hstep : stream_loop_step writeFails t s =
      { webcam := { capturePresent := false, captureOpened := false },
        framesYielded := s.framesYielded + 1, framesWritten := s.framesWritten } := by
    simp [stream_loop_step, write_sink_frame, clear_webcam_capture, hopen, hpresent, hfail]
  refine ⟨by rw [hstep], by rw [hstep], by rw [hstep], ?_⟩
  intro u
  rw [hstep]
  simp [stream_loop_step]

/-- Witness for C4: a running session holding the open device; the write
at iteration 0 fails and the session is idle with the device released. -/
theorem sink_write_failure_recovers_to_idle_witness :
    (stream_loop_step (fun _ => true) 0
      { webcam := { capturePresent := true, captureOpened := true },
        framesYielded := 3, framesWritten := 2 }).webcam.capturePresent = false ∧
    (stream_loop_step (fun _ => true) 0
      { webcam := { capturePresent := true, captureOpened := true },
        framesYielded := 3, framesWritten := 2 }).webcam.captureOpened = false :=
  ⟨(sink_write_failure_recovers_to_idle (fun _ => true) 0
      { webcam := { capturePresent := true, captureOpened := true },
        framesYielded := 3, framesWritten := 2 } rfl rfl rfl).1,
   (sink_write_failure_recovers_to_idle (fun _ => true) 0
      { webcam := { capturePresent := true, captureOpened := true },
        framesYielded := 3, framesWritten := 2 } rfl rfl rfl).2.1⟩

/-- Processing a concatenated chain applies the second part to the
accumulated output of the first. -/
theorem process_stream_frame_append {Face Frame : Type}
    (l1 l2 : List (FrameProcessorModule Face Frame)) (face : Face) (frame : Frame) :
    process_stream_frame (l1 ++ l2) face frame =
      process_stream_frame l2 face (process_stream_frame l1 face frame) := by
  induction l1 generalizing frame with
  | nil => rfl
  | cons m rest ih => simp [process_stream_frame, ih]

/-- C9: in `process_stream_frame`, a stage whose `pre_process` gate
declines is skipped — the frame passes through that stage unmodified, so
the chain behaves as if the stage were absent; a stage whose gate accepts
receives the accumulated output of the previous stages as input, and the
chain's result is the output of the last accepting stage. -/
theorem process_stream_frame_gating {Face Frame : Type}
    (pre post : List (FrameProcessorModule Face Frame)) (m : FrameProcessorModule Face Frame)
    (face : Face) (frame : Frame) :
    (m.pre_process = false →
      process_stream_frame (pre ++ m :: post) face frame =
        process_stream_frame (pre ++ post) face frame) ∧
    (m.pre_process = true →
      process_stream_frame (pre ++ [m]) face frame =
        m.process_frame face (process_stream_frame pre face frame)) := by
  constructor
  · intro hgate
    rw [process_stream_frame_append pre (m :: post) face frame,
      process_stream_frame_append pre post face frame]
    simp [process_stream_frame, hgate]
  · intro hgate
    rw [process_stream_frame_append pre [m] face frame]
    simp [process_stream_frame, hgate]

/-- Witness for C9: a declining stage leaves the frame unchanged and an
accepting stage receives the accumulated frame (here the raw frame 5). -/
theorem process_stream_frame_gating_witness :
    process_stream_frame
        ([] ++ { pre_process := false, process_frame := fun _ x => x + 100 } ::
          ([] : List (FrameProcessorModule Nat Nat))) 0 5 =
      process_stream_frame ([] ++ ([] : List (FrameProcessorModule Nat Nat))) 0 5 ∧
    process_stream_frame
        ([] ++ [{ pre_process := true, process_frame := fun _ x => x + 1 }]) 0 5 =
      (fun (_ : Nat) (x : Nat) => x + 1) 0
        (process_stream_frame ([] : List (FrameProcessorModule Nat Nat)) 0 5) :=
  ⟨(process_stream_frame_gating [] []
      { pre_process := false, process_frame := fun _ x => x + 100 } 0 5).1 rfl,
   (process_stream_frame_gating [] []
      { pre_process := true, process_frame := fun _ x => x + 1 } 0 5).2 rfl⟩

/-- C10: `predict_stream` increments the counter and samples the NSFW
classifier exactly on the calls where the incremented counter is a
multiple of `int(fps)`, returning `False` without running the classifier
on every other call; and for every call with a nonnegative `fps < 1`,
`int(fps) = 0` and the modulo computation divides by zero, so the call
raises instead of returning — `fps >= 1` is a precondition of every call. -/
theorem predict_stream_sampling (cls : Bool) (counter : Nat) (fps : ℚ) (hpos : 0 ≤ fps) :
    (fps < 1 → pythonInt fps = 0 ∧ predict_stream cls counter fps = Except.error ()) ∧
    (1 ≤ fps →
      pythonInt fps ≠ 0 ∧
      (((counter + 1 : Nat) : ℤ) % pythonInt fps = 0 →
        predict_stream cls counter fps =
          Except.ok { ranClassifier := true, result := cls, counter := counter + 1 }) ∧
      (((counter + 1 : Nat) : ℤ) % pythonInt fps ≠ 0 →
        predict_stream cls counter fps =
          Except.ok { ranClassifier := false, result := false, counter := counter + 1 })) := by
  have hint : pythonInt fps = ⌊fps⌋ := if_pos hpos
  constructor
  · intro hlt
    have hzero : ⌊fps⌋ = 0 := by
      rw [Int.floor_eq_zero_iff]
      exact ⟨hpos, hlt⟩
    refine ⟨by rw [hint, hzero], ?_⟩
    simp [predict_stream, hint, hzero]
  · intro hge
    have hone : 1 ≤ ⌊fps⌋ := by
      rw [Int.le_floor]
      exact_mod_cast hge
    have hnz : pythonInt fps ≠ 0 := by
      rw [hint]
      omega
    refine ⟨hnz, ?_, ?_⟩
    · intro hmod
      simp only [predict_stream]
      rw [if_neg hnz, if_pos hmod]
    · intro hmod
      simp only [predict_stream]
      rw [if_neg hnz, if_neg hmod]

/-- Witness for C10: at `fps = 1/2` the call raises; at `fps = 2` the
first call (counter 1) skips the classifier and returns `False`, the
second call (counter 2) runs it. -/
theorem predict_stream_sampling_witness :
    predict_stream true 0 (1 / 2) = Except.error () ∧
    predict_stream true 0 2 =
      Except.ok { ranClassifier := false, result := false, counter := 1 } ∧
    predict_stream true 1 2 =
      Except.ok { ranClassifier := true, result := true, counter := 2 } :=
  ⟨((predict_stream_sampling true 0 (1 / 2) (by norm_num)).1 (by norm_num)).2,
   ((predict_stream_sampling true 0 2 (by norm_num)).2 (by norm_num)).2.2 (by decide),
   ((predict_stream_sampling true 1 2 (by norm_num)).2 (by norm_num)).2.1 (by decide)⟩

/-- A halted `multi_process_capture` generator never changes state again. -/
theorem multi_process_capture_step_halted (capOpen halt : Nat → Bool)
    (done : Nat → Nat → Bool) (t : Nat) (s : CaptureLoopState) (h : s.halted = true) :
    multi_process_capture_step capOpen halt done t s = s := by
  simp [multi_process_capture_step, h]

/-- Pipeline invariant of `multi_process_capture`: as long as the capture
stays open and the content policy has not signalled, the generator is
live, the pending and emitted sequence numbers are each duplicate-free and
disjoint, and together they are exactly the sequence numbers captured so
far. -/
theorem capture_invariant (capOpen halt : Nat → Bool) (done : Nat → Nat → Bool) :
    ∀ T, (∀ t, t < T → capOpen t = true) → (∀ t, t < T → halt t = false) →
    (multi_process_capture capOpen halt done T).halted = false ∧
    (multi_process_capture capOpen halt done T).futures.Nodup ∧
    (multi_process_capture capOpen halt done T).emitted.Nodup ∧
    (∀ i, i ∈ (multi_process_capture capOpen halt done T).futures →
      i ∉ (multi_process_capture capOpen halt done T).emitted) ∧
    (∀ i, (i ∈ (multi_process_capture capOpen halt done T).futures ∨
      i ∈ (multi_process_capture capOpen halt done T).emitted) ↔ i < T) := by
  intro T
  induction T with
  | zero =>
      intro _ _
      refine ⟨rfl, List.nodup_nil, List.nodup_nil, ?_, ?_⟩
      · intro i hi
        simp [multi_process_capture] at hi
      · intro i
        simp [multi_process_capture]
  | succ T ih =>
      intro hcap hhalt
      obtain ⟨hhalted, hfnd, hend, hdisj, hpart⟩ :=
        ih (fun t ht => hcap t (by omega)) (fun t ht => hhalt t (by omega))
      have hfmem : ∀ i, i ∈ (multi_process_capture capOpen halt done T).futures → i < T :=
        fun i hi => (hpart i).1 (Or.inl hi)
      have hemem : ∀ i, i ∈ (multi_process_capture capOpen halt done T).emitted → i < T :=
        fun i hi => (hpart i).1 (Or.inr hi)
      have hTfut : T ∉ (multi_process_capture capOpen halt done T).futures := by
        intro h
        have := hfmem T h
        omega
      have hTem : T ∉ (multi_process_capture capOpen halt done T).emitted := by
        intro h
        have := hemem T h
        omega
      have hstep : multi_process_capture capOpen halt done (T + 1) =
          { futures := ((multi_process_capture capOpen halt done T).futures ++ [T]).filter
              (fun i => !done i T),
            emitted := (multi_process_capture capOpen halt done T).emitted ++
              ((multi_process_capture capOpen halt done T).futures ++ [T]).filter
                (fun i => done i T),
            halted := false } := by
        show multi_process_capture_step capOpen halt done T
          (multi_process_capture capOpen halt done T) = _
        simp [multi_process_capture_step, hhalted, hcap T (by omega), hhalt T (by omega)]
      have hfsnodup : ((multi_process_capture capOpen halt done T).futures ++ [T]).Nodup := by
        rw [List.nodup_append]
        refine ⟨hfnd, List.nodup_singleton T, ?_⟩
        intro a ha hb
        rw [List.mem_singleton] at hb
        subst hb
        exact hTfut ha
      rw [hstep]
      refine ⟨rfl, hfsnodup.filter _, ?_, ?_, ?_⟩
      · rw [List.nodup_append]
        refine ⟨hend, hfsnodup.filter _, ?_⟩
        intro a ha hb
        rw [List.mem_filter] at hb
        rcases List.mem_append.mp hb.1 with hfa | hta
        · exact hdisj a hfa ha
        · rw [List.mem_singleton] at hta
          subst hta
          exact hTem ha
      · intro i hif hie
        rw [List.mem_filter] at hif
        have hnotdone : done i T = false := by
          have := hif.2
          simp at this
          exact this
        rcases List.mem_append.mp hie with hold | hnew
        · rcases List.mem_append.mp hif.1 with hfa | hta
          · exact hdisj i hfa hold
          · rw [List.mem_singleton] at hta
            subst hta
            exact hTem hold
        · rw [List.mem_filter] at hnew
          rw [hnew.2] at hnotdone
          cases hnotdone
      · intro i
        constructor
        · intro h
          rcases h with hif | hie
          · rw [List.mem_filter] at hif
            rcases List.mem_append.mp hif.1 with hfa | hta
            · have := hfmem i hfa
              omega
            · rw [List.mem_singleton] at hta
              omega
          · rcases List.mem_append.mp hie with hold | hnew
            · have := hemem i hold
              omega
            · rw [List.mem_filter] at hnew
              rcases List.mem_append.mp hnew.1 with hfa | hta
              · have := hfmem i hfa
                omega
              · rw [List.mem_singleton] at hta
                omega
        · intro hlt
          have hifs : i ∈ (multi_process_capture capOpen halt done T).futures ++ [T] ∨
              i ∈ (multi_process_capture capOpen halt done T).emitted := by
            rcases Nat.lt_or_ge i T with hiT | hiT
            · rcases (hpart i).2 hiT with hf | he
              · exact Or.inl (List.mem_append.mpr (Or.inl hf))
              · exact Or.inr he
            · have hiT2 : i = T := by omega
              subst hiT2
              exact Or.inl (List.mem_append.mpr (Or.inr (List.mem_singleton.mpr rfl)))
          rcases hifs with hfs | he
          · by_cases hdone : done i T = true
            · refine Or.inr (List.mem_append.mpr (Or.inr ?_))
              rw [List.mem_filter]
              exact ⟨hfs, by simp [hdone]⟩
            · refine Or.inl ?_
              rw [List.mem_filter]
              exact ⟨hfs, by simp [Bool.eq_false_iff.mpr hdone]⟩
          · exact Or.inr (List.mem_append.mpr (Or.inl he))

/-- C2: under normal operation (the capture stays open and the content
policy never signals halt), `multi_process_capture` emits every captured
frame exactly once: the emitted sequence numbers are duplicate-free (at
most once), every emitted frame was captured, and every submitted frame
whose worker future has completed by iteration `t` is emitted by the end
of that iteration (at least once, eventually, in completion order rather
than sequence order). -/
theorem multi_process_capture_exactly_once (capOpen halt : Nat → Bool)
    (done : Nat → Nat → Bool) (hcap : ∀ t, capOpen t = true) (hhalt : ∀ t, halt t = false) :
    (∀ T, (multi_process_capture capOpen halt done T).emitted.Nodup) ∧
    (∀ T i, i ∈ (multi_process_capture capOpen halt done T).emitted → i < T) ∧
    (∀ i t, i ≤ t → done i t = true →
      i ∈ (multi_process_capture capOpen halt done (t + 1)).emitted) := by
  have hinv := fun T => capture_invariant capOpen halt done T
    (fun t _ => hcap t) (fun t _ => hhalt t)
  refine ⟨fun T => (hinv T).2.2.1, fun T i hi => ((hinv T).2.2.2.2 i).1 (Or.inr hi), ?_⟩
  intro i t hle hdone
  obtain ⟨hhalted, _, _, _, hpart⟩ := hinv t
  have hstep : multi_process_capture capOpen halt done (t + 1) =
      { futures := ((multi_process_capture capOpen halt done t).futures ++ [t]).filter
          (fun j => !done j t),
        emitted := (multi_process_capture capOpen halt done t).emitted ++
          ((multi_process_capture capOpen halt done t).futures ++ [t]).filter
            (fun j => done j t),
        halted := false } := by
    show multi_process_capture_step capOpen halt done t
      (multi_process_capture capOpen halt done t) = _
    simp [multi_process_capture_step, hhalted, hcap t, hhalt t]
  rw [hstep]
  by_cases hie : i ∈ (multi_process_capture capOpen halt done t).emitted
  · exact List.mem_append.mpr (Or.inl hie)
  · have hifs : i ∈ (multi_process_capture capOpen halt done t).futures ++ [t] := by
      rcases Nat.lt_or_ge i t with hit | hit
      · rcases (hpart i).2 hit with hf | he
        · exact List.mem_append.mpr (Or.inl hf)
        · exact absurd he hie
      · have : i = t := by omega
        subst this
        exact List.mem_append.mpr (Or.inr (List.mem_singleton.mpr rfl))
    refine List.mem_append.mpr (Or.inr ?_)
    rw [List.mem_filter]
    exact ⟨hifs, hdone⟩

/-- Witness for C2: with every future complete as soon as it is checked,
three iterations emit without duplicates and frame 0 is emitted within its
own iteration. -/
theorem multi_process_capture_exactly_once_witness :
    (multi_process_capture (fun _ => true) (fun _ => false) (fun _ _ => true) 3).emitted.Nodup ∧
    0 ∈ (multi_process_capture (fun _ => true) (fun _ => false) (fun _ _ => true) 1).emitted :=
  ⟨(multi_process_capture_exactly_once (fun _ => true) (fun _ => false) (fun _ _ => true)
      (fun _ => rfl) (fun _ => rfl)).1 3,
   (multi_process_capture_exactly_once (fun _ => true) (fun _ => false) (fun _ _ => true)
      (fun _ => rfl) (fun _ => rfl)).2.2 0 0 (Nat.le_refl 0) rfl⟩

/-- C5 counterexample: the content policy signals halt on the 2nd captured
frame (k = 2, iteration index 1) while the 1st frame's future is still in
flight; the generator returns at once, discarding the in-flight unit, so 0
frames are emitted — not the k - 1 = 1 the claim requires. The in-flight
units are not drained before shutdown. -/
theorem multi_process_capture_drain_claim_false :
    (multi_process_capture (fun _ => true) (fun t => decide (t = 1)) (fun _ _ => false) 2).halted
      = true ∧
    (multi_process_capture (fun _ => true) (fun t => decide (t = 1)) (fun _ _ => false) 2).emitted
      = [] ∧
    (multi_process_capture (fun _ => true) (fun t => decide (t = 1)) (fun _ _ => false) 2).futures
      = [ 0 ] := by
  decide

/-- C5 (amended): when the content policy first signals halt at the
capture of frame `K` (the (K+1)-st captured frame, with the capture open
throughout), the pipeline stops accepting new submissions: frame `K` is
never submitted or emitted, the generator transitions to its terminal
halted state within that iteration, every emitted frame is among the
earlier frames `0..K-1`, and nothing further is emitted afterwards — the
state is frozen from iteration `K+1` on; units still in flight at the halt
are discarded rather than drained, so the number of emitted frames is at
most `K` rather than exactly `K`. -/
theorem multi_process_capture_policy_halt (capOpen halt : Nat → Bool)
    (done : Nat → Nat → Bool) (K : Nat) (hcap : ∀ t, capOpen t = true)
    (hhalt : ∀ t, halt t = true ↔ t = K) :
    ((multi_process_capture capOpen halt done (K + 1)).halted = true) ∧
    ((multi_process_capture capOpen halt done (K + 1)).emitted =
      (multi_process_capture capOpen halt done K).emitted) ∧
    (∀ T, K ∉ (multi_process_capture capOpen halt done T).futures ∧
      K ∉ (multi_process_capture capOpen halt done T).emitted) ∧
    (∀ T i, i ∈ (multi_process_capture capOpen halt done T).emitted → i < K) ∧
    (∀ T, (multi_process_capture capOpen halt done T).emitted.length ≤ K) ∧
    (∀ T, K + 1 ≤ T →
      multi_process_capture capOpen halt done T =
        multi_process_capture capOpen halt done (K + 1)) := by
  have hfalse : ∀ t, t < K → halt t = false := by
    intro t ht
    cases hc : halt t with
    | false => rfl
    | true => exact absurd ((hhalt t).1 hc) (by omega)
  have hK : halt K = true := (hhalt K).2 rfl
  have hinv : ∀ T, T ≤ K →
      (multi_process_capture capOpen halt done T).halted = false ∧
      (multi_process_capture capOpen halt done T).emitted.Nodup ∧
      (∀ i, (i ∈ (multi_process_capture capOpen halt done T).futures ∨
        i ∈ (multi_process_capture capOpen halt done T).emitted) ↔ i < T) := by
    intro T hT
    obtain ⟨h1, _, h3, _, h5⟩ := capture_invariant capOpen halt done T
      (fun t _ => hcap t) (fun t ht => hfalse t (by omega))
    exact ⟨h1, h3, h5⟩
  have hstep : multi_process_capture capOpen halt done (K + 1) =
      { multi_process_capture capOpen halt done K with halted := true } := by
    show multi_process_capture_step capOpen halt done K
      (multi_process_capture capOpen halt done K) = _
    simp [multi_process_capture_step, (hinv K (Nat.le_refl K)).1, hcap K, hK]
  have hfrozen : ∀ d, multi_process_capture capOpen halt done (K + 1 + d) =
      multi_process_capture capOpen halt done (K + 1) := by
    intro d
    induction d with
    | zero => rfl
    | succ n ihn =>
        show multi_process_capture_step capOpen halt done (K + 1 + n)
          (multi_process_capture capOpen halt done (K + 1 + n)) = _
        rw [ihn]
        exact multi_process_capture_step_halted capOpen halt done (K + 1 + n) _
          (by rw [hstep])
    
  have hbound : ∀ T, T ≤ K → ∀ i,
      i ∈ (multi_process_capture capOpen halt done T).futures ∨
      i ∈ (multi_process_capture capOpen halt done T).emitted → i < T := by
    intro T hT i hi
    exact ((hinv T hT).2.2 i).1 hi
  have hframe : ∀ T, K + 1 ≤ T →
      multi_process_capture capOpen halt done T =
        multi_process_capture capOpen halt done (K + 1) := by
    intro T hT
    have : T = K + 1 + (T - (K + 1)) := by omega
    rw [this]
    exact hfrozen (T - (K + 1))
  have hlen : ∀ T, T ≤ K → (multi_process_capture capOpen halt done T).emitted.length ≤ K := by
    intro T hT
    have hsub : (multi_process_capture capOpen halt done T).emitted ⊆ List.range K := by
      intro i hi
      rw [List.mem_range]
      exact lt_of_lt_of_le (hbound T hT i (Or.inr hi)) hT
    have hperm := List.subperm_of_subset (hinv T hT).2.1 hsub
    have := hperm.length_le
    simpa using this
  refine ⟨by rw [hstep], by rw [hstep], ?_, ?_, ?_, hframe⟩
  · intro T
    rcases le_or_lt T K with hT | hT
    · constructor
      · intro h
        have := hbound T hT K (Or.inl h)
        omega
      · intro h
        have := hbound T hT K (Or.inr h)
        omega
    · have hT2 : K + 1 ≤ T := by omega
      rw [hframe T hT2, hstep]
      constructor
      · intro h
        have := hbound K (Nat.le_refl K) K (Or.inl h)
        omega
      · intro h
        have := hbound K (Nat.le_refl K) K (Or.inr h)
        omega
  · intro T i hi
    rcases le_or_lt T K with hT | hT
    · have := hbound T hT i (Or.inr hi)
      omega
    · have hT2 : K + 1 ≤ T := by omega
      rw [hframe T hT2, hstep] at hi
      exact hbound K (Nat.le_refl K) i (Or.inr hi)
  · intro T
    rcases le_or_lt T K with hT | hT
    · exact hlen T hT
    · have hT2 : K + 1 ≤ T := by omega
      rw [hframe T hT2, hstep]
      exact hlen K (Nat.le_refl K)

/-- Witness for C5 (amended): the policy halts at the capture of frame 1;
frame 0 had completed and been collected, frame 1 is never emitted and the
generator is halted. -/
theorem multi_process_capture_policy_halt_witness :
    (multi_process_capture (fun _ => true) (fun t => decide (t = 1)) (fun _ _ => true) 2).halted
      = true ∧
    1 ∉ (multi_process_capture (fun _ => true) (fun t => decide (t = 1)) (fun _ _ => true) 2).emitted :=
  ⟨(multi_process_capture_policy_halt (fun _ => true) (fun t => decide (t = 1))
      (fun _ _ => true) 1 (fun _ => rfl) (fun t => by simp)).1,
   ((multi_process_capture_policy_halt (fun _ => true) (fun t => decide (t = 1))
      (fun _ _ => true) 1 (fun _ => rfl) (fun t => by simp)).2.2.1 2).2⟩
